import Mathlib

/-!
Verification of the piano note trainer's deterministic game engine
(`src/game/mapping.ts`, `src/game/scoring.ts`, `src/game/noteGen.ts`,
`src/game/gameLoop.ts`, `src/game/types.ts`).

Embedding conventions:
* JS numbers holding integers are modelled as `ℤ` (counters that only grow as `ℕ`);
  `Math.floor(x / n)` is `Int.fdiv`, the JS `%` operator is `Int.tmod`.
* JS strings are modelled as `List Char`.
* The injected uniform-randomness source (`Math.random()`) is modelled by explicit
  rational draws in `[0,1)`: each call site of `Math.random()` inside the generation
  of one note reads its own component of a `Draws` record, and sequence generation
  and the state machine receive a stream of such records.
* The injected clock (`getCurrentTime()`) is an explicit `now : ℤ` argument.
* A JS expression that would throw (array access past the end, failed pitch parse)
  is modelled by `Option` where its outcome matters, and by an explicit default
  (`List.getD`) on paths that the theorems prove unreachable.
-/

set_option maxRecDepth 4000
set_option linter.unnecessarySeqFocus false
set_option linter.unusedVariables false

namespace PianoTrainer

/-! Embedding of mapping.ts -/

/-- Definition `NOTE_NAMES` from mapping.ts: the sharp-based 12-entry name table. -/
def NOTE_NAMES : List (List Char) :=
  [['C'], ['C', '#'], ['D'], ['D', '#'], ['E'], ['F'], ['F', '#'],
   ['G'], ['G', '#'], ['A'], ['A', '#'], ['B']]

/-- Definition `NOTE_NAMES_FLAT` from mapping.ts: the flat-based 12-entry name table. -/
def NOTE_NAMES_FLAT : List (List Char) :=
  [['C'], ['D', 'b'], ['D'], ['E', 'b'], ['E'], ['F'], ['G', 'b'],
   ['G'], ['A', 'b'], ['A'], ['B', 'b'], ['B']]

/-- Definition `NATURAL_NOTES` from mapping.ts: pitch classes of the seven naturals. -/
def NATURAL_NOTES : List ℤ := [0, 2, 4, 5, 7, 9, 11]

/-- Definition `isNatural` from mapping.ts: `NATURAL_NOTES.includes(midi % 12)`
(JS `%` is truncating, hence `Int.tmod`). -/
def isNatural (midi : ℤ) : Bool := NATURAL_NOTES.contains (Int.tmod midi 12)

/-- Decimal digit characters of a natural number (JS number-to-string for naturals). -/
def natDigitChars (n : ℕ) : List Char := Nat.toDigits 10 n

/-- JS template interpolation of an integer (`${octave}`). -/
def intChars (n : ℤ) : List Char :=
  if n < 0 then '-' :: natDigitChars n.natAbs else natDigitChars n.toNat

/-- Definition `midiToPitch` from mapping.ts: octave = `Math.floor(midi / 12) - 1`,
name from the sharp or flat table at index `midi % 12`, concatenated with the octave.
(A negative index would give `undefined` in JS; it is modelled by the list default,
and never arises for the note numbers the engine produces.) -/
def midiToPitch (midi : ℤ) (preferFlat : Bool) : List Char :=
  let octave := Int.fdiv midi 12 - 1
  let noteIndex := Int.tmod midi 12
  let noteName := (if preferFlat then NOTE_NAMES_FLAT else NOTE_NAMES).getD noteIndex.toNat []
  noteName ++ intChars octave

/-- The letter table and base offsets of `pitchToMidi`
(`['C','D','E','F','G','A','B']` with offsets `[0,2,4,5,7,9,11]`). -/
def LETTER_OFFSETS : List (Char × ℤ) :=
  [('C', 0), ('D', 2), ('E', 4), ('F', 5), ('G', 7), ('A', 9), ('B', 11)]

/-- Base offset of a pitch letter; `none` when the character is not `A`–`G`. -/
def letterOffset (c : Char) : Option ℤ :=
  (LETTER_OFFSETS.find? (fun p => p.1 == c)).map Prod.snd

/-- Split the maximal leading run of `#` (or of `b`) from the rest of the string.
This realizes the regex alternative `(#{1,2}|b{1,2})?`: the run is homogeneous, and
the caller rejects runs longer than 2 (backtracking cannot save them, because the
octave part of the regex cannot start with `#` or `b`). -/
def splitAccidental : List Char → List Char × List Char
  | '#' :: rest =>
      ('#' :: rest.takeWhile (fun c => c == '#'), rest.dropWhile (fun c => c == '#'))
  | 'b' :: rest =>
      ('b' :: rest.takeWhile (fun c => c == 'b'), rest.dropWhile (fun c => c == 'b'))
  | l => ([], l)

/-- Semitone shift of a matched accidental token, per the if/else chain of
`pitchToMidi`; `none` when the token list is not one the regex can produce. -/
def accidentalShiftOfChars : List Char → Option ℤ
  | [] => some 0
  | ['#'] => some 1
  | ['#', '#'] => some 2
  | ['b'] => some (-1)
  | ['b', 'b'] => some (-2)
  | _ => none

/-- Value of a decimal digit character. -/
def digitVal (c : Char) : ℕ := c.toNat - '0'.toNat

/-- Model of `parseInt` on a string matched by `\d+` (at least one digit, all digits). -/
def parseNatDigits (l : List Char) : Option ℕ :=
  if l.isEmpty then none
  else if l.all (fun c => c.isDigit) then
    some (l.foldl (fun a c => 10 * a + digitVal c) 0)
  else none

/-- Model of `parseInt` on a string matched by `-?\d+`. -/
def parseSignedInt : List Char → Option ℤ
  | '-' :: rest => (parseNatDigits rest).map (fun n => -(n : ℤ))
  | l => (parseNatDigits l).map (fun n => (n : ℤ))

/-- Definition `pitchToMidi` from mapping.ts: parse `^([A-G])(#{1,2}|b{1,2})?(-?\d+)$` and
return `(octave + 1) * 12 + baseOffset + accidentalShift`; `none` models the
thrown `Invalid pitch` error. -/
def pitchToMidi (pitch : List Char) : Option ℤ :=
  match pitch with
  | [] => none
  | c :: rest =>
    match letterOffset c with
    | none => none
    | some base =>
      let acc := splitAccidental rest
      match accidentalShiftOfChars acc.1, parseSignedInt acc.2 with
      | some shift, some octave => some ((octave + 1) * 12 + base + shift)
      | _, _ => none

/-- Accidental tags `'#' | 'b' | '##' | 'bb' | 'n'` from types.ts. -/
inductive Accidental
  | sharp
  | flat
  | doubleSharp
  | doubleFlat
  | natural
deriving DecidableEq

/-- The character spelling of an accidental tag. -/
def accidentalChars : Accidental → List Char
  | .sharp => ['#']
  | .flat => ['b']
  | .doubleSharp => ['#', '#']
  | .doubleFlat => ['b', 'b']
  | .natural => ['n']

/-- Semitone delta applied by `applyAccidental`'s if/else chain
(no branch matches `'n'`, so it contributes 0). -/
def accidentalDelta : Accidental → ℤ
  | .sharp => 1
  | .doubleSharp => 2
  | .flat => -1
  | .doubleFlat => -2
  | .natural => 0

/-- Definition `applyAccidental` from mapping.ts: shift the note number by the accidental,
but build the pitch name from the **original** note's letter
(`NOTE_NAMES[midi % 12].replace('#','')`, which erases the first `#`) and the
**original** note's octave. -/
def applyAccidental (midi : ℤ) (accidentalType : Accidental) : ℤ × List Char :=
  let newMidi := midi + accidentalDelta accidentalType
  let octave := Int.fdiv midi 12 - 1
  let noteIndex := Int.tmod midi 12
  let baseNote := (NOTE_NAMES.getD noteIndex.toNat []).erase '#'
  (newMidi, baseNote ++ accidentalChars accidentalType ++ intChars octave)

/-- Split the accidental for `pitchToVexKey`'s regex, which also admits a single `n`. -/
def splitAccidentalVex : List Char → List Char × List Char
  | 'n' :: rest => (['n'], rest)
  | l => splitAccidental l

/-- Whether a token list is one of `''`, `#`, `##`, `b`, `bb`, `n`. -/
def vexAccidentalOk : List Char → Bool
  | [] => true
  | ['#'] => true
  | ['#', '#'] => true
  | ['b'] => true
  | ['b', 'b'] => true
  | ['n'] => true
  | _ => false

/-- Definition `pitchToVexKey` from mapping.ts: parse `^([A-G])(#{1,2}|b{1,2}|n)?(-?\d+)$` and
rewrite to `<letter><accidental>/<octave>`; `none` models the thrown error.
(The source declares a `clef` parameter but never uses it in the body.) -/
def pitchToVexKey (pitch : List Char) : Option (List Char) :=
  match pitch with
  | [] => none
  | c :: rest =>
    let acc := splitAccidentalVex rest
    if (letterOffset c).isSome ∧ vexAccidentalOk acc.1 ∧ (parseSignedInt acc.2).isSome then
      some (c :: acc.1 ++ '/' :: acc.2)
    else none

/-- The clef actually assigned to a note. -/
inductive Clef
  | treble
  | bass
deriving DecidableEq

/-- Definition `suggestClef` from mapping.ts: treble iff the note number is at least 60. -/
def suggestClef (midi : ℤ) : Clef := if 60 ≤ midi then .treble else .bass

/-- The inclusive integer range `[minMidi, maxMidi]` walked by
`getRandomNaturalMidi`'s for loop. -/
def midiRange (minMidi maxMidi : ℤ) : List ℤ :=
  (List.range (maxMidi - minMidi + 1).toNat).map (fun (k : ℕ) => minMidi + (k : ℤ))

/-- The `naturals` array built by `getRandomNaturalMidi`. -/
def naturalsInRange (minMidi maxMidi : ℤ) : List ℤ :=
  (midiRange minMidi maxMidi).filter (fun m => isNatural m)

/-- Definition `getRandomNaturalMidi` from mapping.ts:
`naturals[Math.floor(r * naturals.length)]` for an injected draw `r ∈ [0,1)`.
An empty `naturals` array would give `undefined` in JS; it is modelled by the
default 0 and never arises for the difficulty profiles' ranges. -/
def getRandomNaturalMidi (minMidi maxMidi : ℤ) (r : ℚ) : ℤ :=
  let naturals := naturalsInRange minMidi maxMidi
  naturals.getD (Int.toNat ⌊r * (naturals.length : ℚ)⌋) 0


/-! Embedding of types.ts -/

/-- Definition `Difficulty` from types.ts. -/
inductive Difficulty
  | beginner
  | intermediate
  | advanced
deriving DecidableEq

/-- Definition `ClefChoice` from types.ts. -/
inductive ClefChoice
  | treble
  | bass
  | both
deriving DecidableEq

/-- Definition `GameSettings` from types.ts. -/
structure GameSettings where
  difficulty : Difficulty
  clef : ClefChoice
  lives : ℤ
  sequenceLength : ℕ
  allowDoubleAccidentals : Bool
  enableFallbackPiano : Bool

/-- Definition `NoteSpec` from types.ts. -/
structure NoteSpec where
  midi : ℤ
  pitch : List Char
  vexKey : List Char
  clef : Clef
  accidental : Option Accidental
deriving DecidableEq

/-- Definition `GameSnapshot` from types.ts (the complete field list of the session state). -/
structure GameSnapshot where
  sequence : List NoteSpec
  currentIndex : ℕ
  score : ℤ
  streak : ℤ
  attempts : ℕ
  correct : ℕ
  lives : ℤ
  avgMsPerNote : ℤ
  startedAt : ℤ
  expectingNoteSince : ℤ
  isPaused : Bool
  isGameOver : Bool
  lastWasCorrect : Option Bool
  flashError : Bool
deriving DecidableEq

/-- Definition `DifficultyConfig` from types.ts. -/
structure DifficultyConfig where
  minMidi : ℤ
  maxMidi : ℤ
  allowNaturalsOnly : Bool
  accidentalProbability : ℚ
  doubleAccidentalProbability : ℚ
  maxLedgerLines : ℕ
  defaultSequenceLength : ℕ

/-- Definition `DIFFICULTY_CONFIGS` from types.ts (probabilities as exact rationals). -/
def DIFFICULTY_CONFIGS : Difficulty → DifficultyConfig
  | .beginner =>
    { minMidi := 48
      maxMidi := 72
      allowNaturalsOnly := true
      accidentalProbability := 0
      doubleAccidentalProbability := 0
      maxLedgerLines := 1
      defaultSequenceLength := 5 }
  | .intermediate =>
    { minMidi := 45
      maxMidi := 76
      allowNaturalsOnly := false
      accidentalProbability := 3 / 10
      doubleAccidentalProbability := 0
      maxLedgerLines := 2
      defaultSequenceLength := 8 }
  | .advanced =>
    { minMidi := 41
      maxMidi := 79
      allowNaturalsOnly := false
      accidentalProbability := 1 / 2
      doubleAccidentalProbability := 1 / 20
      maxLedgerLines := 3
      defaultSequenceLength := 12 }

/-- Definition `DEFAULT_SETTINGS` from types.ts. -/
def DEFAULT_SETTINGS : GameSettings :=
  { difficulty := .beginner
    clef := .treble
    lives := 3
    sequenceLength := 5
    allowDoubleAccidentals := false
    enableFallbackPiano := false }

/-! Embedding of scoring.ts -/

/-- Definition `ScoreUpdate` from scoring.ts. -/
structure ScoreUpdate where
  score : ℤ
  streak : ℤ
  streakBonus : ℤ
deriving DecidableEq

def BASE_POINTS : ℤ := 10

def STREAK_MILESTONE : ℤ := 5

def STREAK_BONUS_POINTS : ℤ := 5

/-- Definition `calculateScoreForCorrect` from scoring.ts: `newStreak = streak + 1`, bonus
iff `newStreak % STREAK_MILESTONE === 0` (JS `%` on the values reached is `Int.tmod`). -/
def calculateScoreForCorrect (currentScore currentStreak : ℤ) : ScoreUpdate :=
  let newStreak := currentStreak + 1
  let streakBonus := if Int.tmod newStreak STREAK_MILESTONE = 0 then STREAK_BONUS_POINTS else 0
  let newScore := currentScore + BASE_POINTS + streakBonus
  { score := newScore, streak := newStreak, streakBonus := streakBonus }

/-- Model of `Math.round`: round half toward positive infinity. -/
def jsRound (q : ℚ) : ℤ := ⌊q + 1 / 2⌋

/-- Definition `updateAvgResponseTime` from scoring.ts: first sample verbatim, then
`Math.round(currentAvg * 0.7 + newTime * 0.3)` (exact rationals stand in for
the float literals 0.7 and 0.3). -/
def updateAvgResponseTime (currentAvg newTime : ℤ) (totalCorrect : ℕ) : ℤ :=
  if totalCorrect = 1 then newTime
  else jsRound ((currentAvg : ℚ) * (7 / 10) + (newTime : ℚ) * (3 / 10))

/-! Embedding of noteGen.ts -/

/-- One injected uniform draw in `[0,1)` for each of the four `Math.random()`
call sites that the generation of a single note can perform. -/
structure Draws where
  accDraw : ℚ
  dblDraw : ℚ
  noteDraw : ℚ
  typeDraw : ℚ

/-- A draw lies in `[0,1)`, as `Math.random()` guarantees. -/
def ValidDraw (r : ℚ) : Prop := 0 ≤ r ∧ r < 1

def ValidDraws (d : Draws) : Prop :=
  ValidDraw d.accDraw ∧ ValidDraw d.dblDraw ∧ ValidDraw d.noteDraw ∧ ValidDraw d.typeDraw

def ValidStream (g : ℕ → Draws) : Prop := ∀ n, ValidDraws (g n)

/-- Definition `determineClef` from noteGen.ts. -/
def determineClef (clefChoice : ClefChoice) (midi : ℤ) : Clef :=
  match clefChoice with
  | .treble => .treble
  | .bass => .bass
  | .both => suggestClef midi

/-- The exact guard under which `generateNote` evaluates the division
`doubleAccidentalProbability / accidentalProbability`: the profile is not
naturals-only (else-branch), the accidental draw passed
(`Math.random() < accidentalProbability`), and `settings.allowDoubleAccidentals`
is true (`&&` short-circuits the second operand otherwise). -/
def evaluatesDoubleAccidentalRatio
    (settings : GameSettings) (config : DifficultyConfig) (d : Draws) : Prop :=
  config.allowNaturalsOnly = false ∧
  d.accDraw < config.accidentalProbability ∧
  settings.allowDoubleAccidentals = true

/-- The branches of `generateNote` that choose `midi`, `pitch` and `accidental`. -/
def generateNoteCore
    (settings : GameSettings) (config : DifficultyConfig) (d : Draws) :
    ℤ × List Char × Option Accidental :=
  if config.allowNaturalsOnly then
    let midi := getRandomNaturalMidi config.minMidi config.maxMidi d.noteDraw
    (midi, midiToPitch midi false, none)
  else if d.accDraw < config.accidentalProbability then
    -- shouldHaveAccidental
    let shouldBeDouble : Bool :=
      settings.allowDoubleAccidentals &&
        decide (d.dblDraw < config.doubleAccidentalProbability / config.accidentalProbability)
    let baseMidi := getRandomNaturalMidi config.minMidi config.maxMidi d.noteDraw
    let accidentalTypes : List Accidental :=
      if shouldBeDouble then [.doubleSharp, .doubleFlat] else [.sharp, .flat]
    let chosenAccidental :=
      accidentalTypes.getD (Int.toNat ⌊d.typeDraw * (accidentalTypes.length : ℚ)⌋) .sharp
    let result := applyAccidental baseMidi chosenAccidental
    if result.1 < config.minMidi ∨ config.maxMidi < result.1 then
      -- fall back to natural
      (baseMidi, midiToPitch baseMidi false, none)
    else
      (result.1, result.2, some chosenAccidental)
  else
    -- natural note
    let midi := getRandomNaturalMidi config.minMidi config.maxMidi d.noteDraw
    (midi, midiToPitch midi false, none)

/-- Definition `generateNote` from noteGen.ts: the chosen note plus its clef and VexFlow key.
(The source calls `pitchToVexKey(pitch)`; the parse always succeeds on the
engine-generated pitch names, and a failure is modelled by the list default.) -/
def generateNote (settings : GameSettings) (config : DifficultyConfig) (d : Draws) : NoteSpec :=
  let core := generateNoteCore settings config d
  { midi := core.1
    pitch := core.2.1
    vexKey := (pitchToVexKey core.2.1).getD []
    clef := determineClef settings.clef core.1
    accidental := core.2.2 }

/-- Definition `generateSequence` from noteGen.ts: one independently generated note per
position `i < settings.sequenceLength`, each consuming its own draws `g i`. -/
def generateSequence (settings : GameSettings) (g : ℕ → Draws) : List NoteSpec :=
  (List.range settings.sequenceLength).map
    (fun i => generateNote settings (DIFFICULTY_CONFIGS settings.difficulty) (g i))

/-- Definition `regenerateSequence` from noteGen.ts: identical to `generateSequence`. -/
def regenerateSequence (settings : GameSettings) (g : ℕ → Draws) : List NoteSpec :=
  generateSequence settings g

/-! Embedding of gameLoop.ts -/

/-- Definition `startGame` from gameLoop.ts (`now` is the injected clock reading). -/
def startGame (settings : GameSettings) (g : ℕ → Draws) (now : ℤ) : GameSnapshot :=
  { sequence := generateSequence settings g
    currentIndex := 0
    score := 0
    streak := 0
    attempts := 0
    correct := 0
    lives := settings.lives
    avgMsPerNote := 0
    startedAt := now
    expectingNoteSince := now
    isPaused := false
    isGameOver := false
    lastWasCorrect := none
    flashError := false }

/-- Definition `handleCorrectInput` from gameLoop.ts. -/
def handleCorrectInput
    (snapshot : GameSnapshot) (now : ℤ) (settings : GameSettings) (g : ℕ → Draws) :
    GameSnapshot :=
  let responseTime := now - snapshot.expectingNoteSince
  let scoreUpdate := calculateScoreForCorrect snapshot.score snapshot.streak
  let newCorrect := snapshot.correct + 1
  let newAvgMs := updateAvgResponseTime snapshot.avgMsPerNote responseTime newCorrect
  let newIndex := snapshot.currentIndex + 1
  if snapshot.sequence.length ≤ newIndex then
    { snapshot with
      sequence := regenerateSequence settings g
      currentIndex := 0
      score := scoreUpdate.score
      streak := scoreUpdate.streak
      correct := newCorrect
      avgMsPerNote := newAvgMs
      expectingNoteSince := now
      lastWasCorrect := some true
      flashError := false }
  else
    { snapshot with
      currentIndex := newIndex
      score := scoreUpdate.score
      streak := scoreUpdate.streak
      correct := newCorrect
      avgMsPerNote := newAvgMs
      expectingNoteSince := now
      lastWasCorrect := some true
      flashError := false }

/-- Definition `handleIncorrectInput` from gameLoop.ts. -/
def handleIncorrectInput
    (snapshot : GameSnapshot) (settings : GameSettings) (g : ℕ → Draws) (now : ℤ) :
    GameSnapshot :=
  let newLives := snapshot.lives - 1
  if newLives ≤ 0 then
    { snapshot with
      lives := 0
      streak := 0
      isGameOver := true
      lastWasCorrect := some false
      flashError := true }
  else
    { snapshot with
      sequence := regenerateSequence settings g
      currentIndex := 0
      lives := newLives
      streak := 0
      expectingNoteSince := now
      lastWasCorrect := some false
      flashError := true }

/-- The `undefined` a JS out-of-bounds array read yields, as a default `NoteSpec`;
`handleInput` only performs the read on snapshots the theorems prove in-bounds. -/
def defaultNoteSpec : NoteSpec :=
  { midi := 0, pitch := [], vexKey := [], clef := .treble, accidental := none }

/-- Definition `handleInput` from gameLoop.ts: no-op when paused or game over, otherwise
increment attempts and dispatch on `midiNote === sequence[currentIndex].midi`. -/
def handleInput
    (snapshot : GameSnapshot) (midiNote : ℤ) (settings : GameSettings)
    (g : ℕ → Draws) (now : ℤ) : GameSnapshot :=
  if snapshot.isPaused || snapshot.isGameOver then snapshot
  else
    let expectedNote := snapshot.sequence.getD snapshot.currentIndex defaultNoteSpec
    let newSnapshot := { snapshot with attempts := snapshot.attempts + 1 }
    if midiNote = expectedNote.midi then handleCorrectInput newSnapshot now settings g
    else handleIncorrectInput newSnapshot settings g now

/-- Definition `pauseGame` from gameLoop.ts. -/
def pauseGame (snapshot : GameSnapshot) : GameSnapshot :=
  { snapshot with isPaused := true }

/-- Definition `resumeGame` from gameLoop.ts. -/
def resumeGame (snapshot : GameSnapshot) (now : ℤ) : GameSnapshot :=
  { snapshot with isPaused := false, expectingNoteSince := now }

/-- Definition `clearFlashError` from gameLoop.ts. -/
def clearFlashError (snapshot : GameSnapshot) : GameSnapshot :=
  { snapshot with flashError := false }

/-- The exact condition under which `handleInput` reads
`sequence[currentIndex]` past the end of the array (the JS code would then
throw reading `.midi` of `undefined`): the snapshot is active and the index
is not in bounds. -/
def inputAccessOutOfBounds (s : GameSnapshot) : Prop :=
  s.isPaused = false ∧ s.isGameOver = false ∧ s.sequence.length ≤ s.currentIndex

/-- Snapshots reachable from `startGame settings` by finite sequences of
`handleInput`, `pauseGame`, `resumeGame` and `clearFlashError` calls, with
every randomness stream valid and arbitrary clock readings. -/
inductive Reachable (settings : GameSettings) : GameSnapshot → Prop
  | start (g : ℕ → Draws) (now : ℤ) (hg : ValidStream g) :
      Reachable settings (startGame settings g now)
  | input {snap : GameSnapshot} (midiNote : ℤ) (g : ℕ → Draws) (now : ℤ)
      (hg : ValidStream g) : Reachable settings snap →
      Reachable settings (handleInput snap midiNote settings g now)
  | pause {snap : GameSnapshot} : Reachable settings snap →
      Reachable settings (pauseGame snap)
  | resume {snap : GameSnapshot} (now : ℤ) : Reachable settings snap →
      Reachable settings (resumeGame snap now)
  | clearFlash {snap : GameSnapshot} : Reachable settings snap →
      Reachable settings (clearFlashError snap)

/-- Feed the state machine `k` consecutive `handleInput` calls, each supplying
the currently expected note number, with per-step randomness streams `G` and
clock readings `T`. -/
def playCorrect (settings : GameSettings) (G : ℕ → ℕ → Draws) (T : ℕ → ℤ) :
    ℕ → GameSnapshot → GameSnapshot
  | 0, snap => snap
  | k + 1, snap =>
      playCorrect settings (fun n => G (n + 1)) (fun n => T (n + 1)) k
        (handleInput snap ((snap.sequence.getD snap.currentIndex defaultNoteSpec).midi)
          settings (G 0) (T 0))

/-- The all-zero draw record (used to instantiate witnesses). -/
def zeroDraws : Draws := { accDraw := 0, dblDraw := 0, noteDraw := 0, typeDraw := 0 }

/-- The constant all-zero randomness stream. -/
def zeroStream : ℕ → Draws := fun _ => zeroDraws

/-! Helper lemmas -/

lemma validDraw_zero : ValidDraw 0 := ⟨le_refl 0, zero_lt_one⟩

lemma validDraws_zero : ValidDraws zeroDraws :=
  ⟨validDraw_zero, validDraw_zero, validDraw_zero, validDraw_zero⟩

lemma validStream_zero : ValidStream zeroStream := fun _ => validDraws_zero

lemma generateSequence_length (settings : GameSettings) (g : ℕ → Draws) :
    (generateSequence settings g).length = settings.sequenceLength := by
  simp [generateSequence]

lemma tmod_natCast (a b : ℕ) : Int.tmod (a : ℤ) (b : ℤ) = ((a % b : ℕ) : ℤ) := rfl

lemma mem_midiRange {lo hi m : ℤ} (h : m ∈ midiRange lo hi) :
    lo ≤ m ∧ m ≤ hi := by
  unfold midiRange at h
  obtain ⟨i, hlt, hm⟩ := List.mem_iff_getElem.mp h
  simp only [List.getElem_map, List.getElem_range] at hm
  simp only [List.length_map, List.length_range] at hlt
  omega

lemma mem_naturalsInRange {lo hi m : ℤ} (h : m ∈ naturalsInRange lo hi) :
    lo ≤ m ∧ m ≤ hi ∧ isNatural m = true := by
  unfold naturalsInRange at h
  have h2 := List.mem_filter.mp h
  have h3 := mem_midiRange h2.1
  exact ⟨h3.1, h3.2, by simpa using h2.2⟩

lemma getRandomNaturalMidi_mem {lo hi : ℤ} {r : ℚ} (hr : ValidDraw r)
    (hne : naturalsInRange lo hi ≠ []) :
    getRandomNaturalMidi lo hi r ∈ naturalsInRange lo hi := by
  unfold getRandomNaturalMidi
  have hlen : 0 < (naturalsInRange lo hi).length := List.length_pos.mpr hne
  have hfloor : ⌊r * ((naturalsInRange lo hi).length : ℚ)⌋ <
      ((naturalsInRange lo hi).length : ℤ) := by
    apply Int.floor_lt.mpr
    have h1 : r * ((naturalsInRange lo hi).length : ℚ) <
        1 * ((naturalsInRange lo hi).length : ℚ) :=
      mul_lt_mul_of_pos_right hr.2 (by exact_mod_cast hlen)
    push_cast
    simpa using h1
  have hidx : Int.toNat ⌊r * ((naturalsInRange lo hi).length : ℚ)⌋ <
      (naturalsInRange lo hi).length := by omega
  rw [List.getD_eq_getElem _ _ hidx]
  exact List.getElem_mem hidx

/-- Claim C6: for all (score, streak) pairs, `calculateScoreForCorrect` returns
the streak incremented by one, and the score increased by exactly 10 plus a
bonus that is 5 iff the new streak is a positive multiple of 5 and 0 otherwise. -/
theorem calculateScoreForCorrect_spec (score : ℤ) (streak : ℕ) :
    (calculateScoreForCorrect score (streak : ℤ)).streak = (streak : ℤ) + 1 ∧
    (calculateScoreForCorrect score (streak : ℤ)).score =
      score + 10 + (calculateScoreForCorrect score (streak : ℤ)).streakBonus ∧
    (calculateScoreForCorrect score (streak : ℤ)).streakBonus =
      (if 0 < (streak : ℤ) + 1 ∧ (5 : ℤ) ∣ ((streak : ℤ) + 1) then 5 else 0) := by
  have hcast : ((streak : ℤ) + 1) = ((streak + 1 : ℕ) : ℤ) := by push_cast; ring
  refine ⟨rfl, rfl, ?_⟩
  have hb : (calculateScoreForCorrect score (streak : ℤ)).streakBonus =
      if Int.tmod ((streak : ℤ) + 1) 5 = 0 then 5 else 0 := rfl
  have h5 : Int.tmod ((streak : ℤ) + 1) 5 = (((streak + 1) % 5 : ℕ) : ℤ) := by
    rw [hcast]; rfl
  rw [hb, h5]
  have hpos : (0 : ℤ) < (streak : ℤ) + 1 := by positivity
  by_cases h : (streak + 1) % 5 = 0
  · have hd : (5 : ℤ) ∣ ((streak : ℤ) + 1) := by
      rw [hcast]
      exact_mod_cast Int.natCast_dvd_natCast.mpr (Nat.dvd_iff_mod_eq_zero.mpr h)
    simp [h, hd, hpos]
  · have hd : ¬ (5 : ℤ) ∣ ((streak : ℤ) + 1) := by
      rw [hcast]
      intro hc
      exact h (Nat.dvd_iff_mod_eq_zero.mp (by exact_mod_cast hc))
    have hne : (((streak + 1) % 5 : ℕ) : ℤ) ≠ 0 := by exact_mod_cast h
    simp [hne, hd]

/-- The pitch-name round trip checked pointwise on the piano range, for both
name tables. -/
lemma pitch_roundtrip_aux : ∀ n : ℕ, n < 109 → 21 ≤ n →
    pitchToMidi (midiToPitch (n : ℤ) true) = some (n : ℤ) ∧
    pitchToMidi (midiToPitch (n : ℤ) false) = some (n : ℤ) := by decide

/-- Claim C7: on the piano range [21,108], `pitchToMidi` is a left inverse of
`midiToPitch`, for both the sharp and the flat name tables. -/
theorem pitchToMidi_leftInverse_midiToPitch (n : ℤ) (h1 : 21 ≤ n) (h2 : n ≤ 108)
    (preferFlat : Bool) : pitchToMidi (midiToPitch n preferFlat) = some n := by
  obtain ⟨m, rfl⟩ : ∃ m : ℕ, n = (m : ℤ) := ⟨n.toNat, by omega⟩
  have h := pitch_roundtrip_aux m (by omega) (by omega)
  cases preferFlat
  · exact h.2
  · exact h.1

/-- Witness for C7 at note number 60 (middle C). -/
theorem pitchToMidi_leftInverse_midiToPitch_witness :
    (21 : ℤ) ≤ 60 ∧ (60 : ℤ) ≤ 108 ∧ pitchToMidi (midiToPitch 60 false) = some 60 :=
  ⟨by decide, by decide,
    pitchToMidi_leftInverse_midiToPitch 60 (by decide) (by decide) false⟩

/-- Advanced settings with double accidentals allowed (witness instantiations). -/
def doubleAccidentalSettings : GameSettings :=
  { DEFAULT_SETTINGS with difficulty := .advanced, allowDoubleAccidentals := true }

/-- The natural notes available to each difficulty profile form a non-empty list. -/
lemma naturalsInRange_config_ne (diff : Difficulty) :
    naturalsInRange (DIFFICULTY_CONFIGS diff).minMidi (DIFFICULTY_CONFIGS diff).maxMidi ≠ [] := by
  cases diff <;> decide

/-- Every difficulty profile's range lies inside [41, 79]. -/
lemma config_range_subset (diff : Difficulty) :
    41 ≤ (DIFFICULTY_CONFIGS diff).minMidi ∧ (DIFFICULTY_CONFIGS diff).maxMidi ≤ 79 := by
  cases diff <;> decide

/-- Indexing with default `.sharp` into a list of real accidentals never
yields the `n` tag. -/
lemma getD_ne_natural (l : List Accidental) (hl : ∀ a ∈ l, a ≠ .natural) (i : ℕ) :
    l.getD i .sharp ≠ .natural := by
  by_cases h : i < l.length
  · rw [List.getD_eq_getElem _ _ h]
    exact hl _ (List.getElem_mem h)
  · rw [List.getD_eq_default]
    · decide
    · omega

/-- Definition `applyAccidental` round trip checked pointwise: on every natural base note
in [41, 79] and every real accidental, the produced pitch name parses back to
the produced note number. -/
lemma applyAcc_aux : ∀ n : ℕ, n < 80 → 41 ≤ n → isNatural (n : ℤ) = true →
    (pitchToMidi (applyAccidental (n : ℤ) .sharp).2 = some (applyAccidental (n : ℤ) .sharp).1 ∧
     pitchToMidi (applyAccidental (n : ℤ) .flat).2 = some (applyAccidental (n : ℤ) .flat).1) ∧
    (pitchToMidi (applyAccidental (n : ℤ) .doubleSharp).2 =
        some (applyAccidental (n : ℤ) .doubleSharp).1 ∧
     pitchToMidi (applyAccidental (n : ℤ) .doubleFlat).2 =
        some (applyAccidental (n : ℤ) .doubleFlat).1) := by decide

/-- Case analysis of `generateNoteCore`: the result is either a natural note
drawn from the profile's range, or an accidental applied to such a natural
whose shifted note number passed the in-range check. -/
lemma generateNoteCore_cases (settings : GameSettings) (config : DifficultyConfig)
    (d : Draws) (hd : ValidDraws d)
    (hne : naturalsInRange config.minMidi config.maxMidi ≠ []) :
    (∃ m ∈ naturalsInRange config.minMidi config.maxMidi,
        generateNoteCore settings config d = (m, midiToPitch m false, none)) ∨
    (∃ b ∈ naturalsInRange config.minMidi config.maxMidi, ∃ t : Accidental,
        t ≠ .natural ∧
        config.minMidi ≤ (applyAccidental b t).1 ∧
        (applyAccidental b t).1 ≤ config.maxMidi ∧
        config.allowNaturalsOnly = false ∧
        generateNoteCore settings config d =
          ((applyAccidental b t).1, (applyAccidental b t).2, some t)) := by
  have hmem := getRandomNaturalMidi_mem hd.2.2.1 hne
  simp only [generateNoteCore]
  split_ifs with h1 h2 h3 h4 h5
  · exact Or.inl ⟨_, hmem, rfl⟩
  · exact Or.inl ⟨_, hmem, rfl⟩
  · push_neg at h4
    exact Or.inr ⟨_, hmem, _, getD_ne_natural _ (by decide) _, h4.1, h4.2,
      by simpa using h1, rfl⟩
  · exact Or.inl ⟨_, hmem, rfl⟩
  · push_neg at h5
    exact Or.inr ⟨_, hmem, _, getD_ne_natural _ (by decide) _, h5.1, h5.2,
      by simpa using h1, rfl⟩
  · exact Or.inl ⟨_, hmem, rfl⟩

/-- Per-note specification: range membership, the naturals-only guarantee, and
consistency of the carried pitch name with the carried note number. -/
lemma generateNote_spec (settings : GameSettings) (diff : Difficulty) (d : Draws)
    (hd : ValidDraws d) :
    ((DIFFICULTY_CONFIGS diff).minMidi ≤
        (generateNote settings (DIFFICULTY_CONFIGS diff) d).midi ∧
      (generateNote settings (DIFFICULTY_CONFIGS diff) d).midi ≤
        (DIFFICULTY_CONFIGS diff).maxMidi) ∧
    ((DIFFICULTY_CONFIGS diff).allowNaturalsOnly = true →
      (generateNote settings (DIFFICULTY_CONFIGS diff) d).accidental = none ∧
      isNatural (generateNote settings (DIFFICULTY_CONFIGS diff) d).midi = true) ∧
    pitchToMidi (generateNote settings (DIFFICULTY_CONFIGS diff) d).pitch =
      some (generateNote settings (DIFFICULTY_CONFIGS diff) d).midi := by
  have hmidi : (generateNote settings (DIFFICULTY_CONFIGS diff) d).midi =
      (generateNoteCore settings (DIFFICULTY_CONFIGS diff) d).1 := rfl
  have hpitch : (generateNote settings (DIFFICULTY_CONFIGS diff) d).pitch =
      (generateNoteCore settings (DIFFICULTY_CONFIGS diff) d).2.1 := rfl
  have hacc : (generateNote settings (DIFFICULTY_CONFIGS diff) d).accidental =
      (generateNoteCore settings (DIFFICULTY_CONFIGS diff) d).2.2 := rfl
  have hsub := config_range_subset diff
  rcases generateNoteCore_cases settings (DIFFICULTY_CONFIGS diff) d hd
      (naturalsInRange_config_ne diff) with
    ⟨m, hm, heq⟩ | ⟨b, hb, t, ht, hlo, hhi, hno, heq⟩
  · obtain ⟨h1, h2, h3⟩ := mem_naturalsInRange hm
    rw [hmidi, hpitch, hacc, heq]
    refine ⟨⟨h1, h2⟩, fun _ => ⟨rfl, h3⟩, ?_⟩
    obtain ⟨n, rfl⟩ : ∃ n : ℕ, m = (n : ℤ) := ⟨m.toNat, by omega⟩
    exact (pitch_roundtrip_aux n (by omega) (by omega)).2
  · obtain ⟨h1, h2, h3⟩ := mem_naturalsInRange hb
    rw [hmidi, hpitch, hacc, heq]
    refine ⟨⟨hlo, hhi⟩, fun hx => absurd hx (by simp [hno]), ?_⟩
    obtain ⟨n, rfl⟩ : ∃ n : ℕ, b = (n : ℤ) := ⟨b.toNat, by omega⟩
    have haux := applyAcc_aux n (by omega) (by omega) h3
    cases t
    · exact haux.1.1
    · exact haux.1.2
    · exact haux.2.1
    · exact haux.2.2
    · exact absurd rfl ht

/-- Claim C2: `generateSequence` returns exactly `sequenceLength` notes, every
note number lies within the active profile's inclusive range, and for the
naturals-only beginner profile every note has no accidental and is natural. -/
theorem generateSequence_range_and_naturals (settings : GameSettings)
    (g : ℕ → Draws) (hg : ValidStream g) :
    (generateSequence settings g).length = settings.sequenceLength ∧
    ∀ note ∈ generateSequence settings g,
      (DIFFICULTY_CONFIGS settings.difficulty).minMidi ≤ note.midi ∧
      note.midi ≤ (DIFFICULTY_CONFIGS settings.difficulty).maxMidi ∧
      (settings.difficulty = Difficulty.beginner →
        note.accidental = none ∧ isNatural note.midi = true) := by
  refine ⟨generateSequence_length settings g, ?_⟩
  intro note hnote
  unfold generateSequence at hnote
  obtain ⟨i, hi, rfl⟩ := List.mem_map.mp hnote
  have h := generateNote_spec settings settings.difficulty (g i) (hg i)
  refine ⟨h.1.1, h.1.2, fun hbeg => h.2.1 (by rw [hbeg]; rfl)⟩

/-- Witness for C2 at the default settings with the zero randomness stream. -/
theorem generateSequence_range_and_naturals_witness :
    ValidStream zeroStream ∧
    ((generateSequence DEFAULT_SETTINGS zeroStream).length =
        DEFAULT_SETTINGS.sequenceLength ∧
      ∀ note ∈ generateSequence DEFAULT_SETTINGS zeroStream,
        (DIFFICULTY_CONFIGS DEFAULT_SETTINGS.difficulty).minMidi ≤ note.midi ∧
        note.midi ≤ (DIFFICULTY_CONFIGS DEFAULT_SETTINGS.difficulty).maxMidi ∧
        (DEFAULT_SETTINGS.difficulty = Difficulty.beginner →
          note.accidental = none ∧ isNatural note.midi = true)) :=
  ⟨validStream_zero,
    generateSequence_range_and_naturals DEFAULT_SETTINGS zeroStream validStream_zero⟩

/-- Claim C10: every `NoteSpec` produced by `generateSequence` carries a pitch
name that `pitchToMidi` parses back to exactly the carried note number. -/
theorem generateSequence_pitch_consistent (settings : GameSettings)
    (g : ℕ → Draws) (hg : ValidStream g) :
    ∀ note ∈ generateSequence settings g,
      pitchToMidi note.pitch = some note.midi := by
  intro note hnote
  unfold generateSequence at hnote
  obtain ⟨i, hi, rfl⟩ := List.mem_map.mp hnote
  exact (generateNote_spec settings settings.difficulty (g i) (hg i)).2.2

/-- Witness for C10 at the advanced profile with double accidentals allowed. -/
theorem generateSequence_pitch_consistent_witness :
    ValidStream zeroStream ∧
    ∀ note ∈ generateSequence doubleAccidentalSettings zeroStream,
      pitchToMidi note.pitch = some note.midi :=
  ⟨validStream_zero,
    generateSequence_pitch_consistent doubleAccidentalSettings zeroStream validStream_zero⟩

/-- Claim C9: whenever `generateNote` evaluates the double-accidental
eligibility ratio `doubleAccidentalProbability / accidentalProbability` for one
of the three fixed difficulty profiles, the divisor is strictly positive: the
guard requires the accidental draw (a value in `[0,1)`) to be below
`accidentalProbability`. -/
theorem doubleAccidental_ratio_divisor_pos (settings : GameSettings)
    (diff : Difficulty) (d : Draws) (hd : ValidDraws d)
    (h : evaluatesDoubleAccidentalRatio settings (DIFFICULTY_CONFIGS diff) d) :
    0 < (DIFFICULTY_CONFIGS diff).accidentalProbability :=
  lt_of_le_of_lt hd.1.1 h.2.1

/-- Witness for C9: the advanced profile with double accidentals allowed and a
zero accidental draw reaches the guard, and its divisor is positive. -/
theorem doubleAccidental_ratio_divisor_pos_witness :
    evaluatesDoubleAccidentalRatio doubleAccidentalSettings
      (DIFFICULTY_CONFIGS .advanced) zeroDraws ∧
    0 < (DIFFICULTY_CONFIGS .advanced).accidentalProbability :=
  ⟨⟨rfl, one_half_pos, rfl⟩,
    doubleAccidental_ratio_divisor_pos doubleAccidentalSettings .advanced zeroDraws
      validDraws_zero ⟨rfl, one_half_pos, rfl⟩⟩

/-! State-machine invariants -/

/-- The invariant every transition of the state machine maintains: the expected
index is in bounds, lives are non-negative, lives hit zero exactly at game
over, and there are at least as many attempts as correct answers. -/
def Inv (s : GameSnapshot) : Prop :=
  s.currentIndex < s.sequence.length ∧ 0 ≤ s.lives ∧
  (s.lives = 0 ↔ s.isGameOver = true) ∧ s.correct ≤ s.attempts

lemma startGame_inv (settings : GameSettings) (g : ℕ → Draws) (now : ℤ)
    (hl : 1 ≤ settings.lives) (hs : 1 ≤ settings.sequenceLength) :
    Inv (startGame settings g now) := by
  simp only [Inv, startGame, generateSequence_length]
  refine ⟨by omega, by omega, ?_, le_refl 0⟩
  simp
  omega

lemma handleInput_inv {settings : GameSettings} (hs : 1 ≤ settings.sequenceLength)
    {snap : GameSnapshot} (h : Inv snap) (m : ℤ) (g : ℕ → Draws) (now : ℤ) :
    Inv (handleInput snap m settings g now) := by
  obtain ⟨h1, h2, h3, h4⟩ := h
  simp only [handleInput]
  split_ifs with hterm hcorr
  · exact ⟨h1, h2, h3, h4⟩
  · have hgo : snap.isGameOver = false := by
      revert hterm
      cases snap.isGameOver <;> simp
    simp only [handleCorrectInput]
    split_ifs with hlen
    · refine ⟨?_, ?_, ?_, ?_⟩ <;>
        simp [regenerateSequence, generateSequence_length, calculateScoreForCorrect,
          h2, h3, hgo] <;> omega
    · refine ⟨?_, ?_, ?_, ?_⟩ <;>
        simp [calculateScoreForCorrect, h2, h3, hgo] <;> omega
  · have hgo : snap.isGameOver = false := by
      revert hterm
      cases snap.isGameOver <;> simp
    simp only [handleIncorrectInput]
    split_ifs with hdead
    · refine ⟨?_, ?_, ?_, ?_⟩ <;> simp [h1] <;> omega
    · refine ⟨?_, ?_, ?_, ?_⟩ <;>
        simp [regenerateSequence, generateSequence_length, hgo] <;> omega

lemma reachable_inv (settings : GameSettings) (hl : 1 ≤ settings.lives)
    (hs : 1 ≤ settings.sequenceLength) :
    ∀ {snap : GameSnapshot}, Reachable settings snap → Inv snap := by
  intro snap hr
  induction hr with
  | start g now hg => exact startGame_inv settings g now hl hs
  | input m g now hg hr ih => exact handleInput_inv hs ih m g now
  | pause hr ih => simpa [Inv, pauseGame] using ih
  | resume now hr ih => simpa [Inv, resumeGame] using ih
  | clearFlash hr ih => simpa [Inv, clearFlashError] using ih

/-- Claim C1: on every snapshot reachable from `startGame` (lives in [1,5],
sequence length in [3,20]) by `handleInput`, `pauseGame`, `resumeGame` and
`clearFlashError`: `0 ≤ currentIndex ≤ length(sequence)`, `lives ≥ 0`,
`lives = 0` iff `isGameOver`, and `attempts ≥ correct`. -/
theorem reachable_snapshot_invariants (settings : GameSettings)
    (hl1 : 1 ≤ settings.lives) (hl2 : settings.lives ≤ 5)
    (hs1 : 3 ≤ settings.sequenceLength) (hs2 : settings.sequenceLength ≤ 20)
    {snap : GameSnapshot} (hr : Reachable settings snap) :
    0 ≤ snap.currentIndex ∧ snap.currentIndex ≤ snap.sequence.length ∧
    0 ≤ snap.lives ∧ (snap.lives = 0 ↔ snap.isGameOver = true) ∧
    snap.correct ≤ snap.attempts := by
  obtain ⟨h1, h2, h3, h4⟩ := reachable_inv settings (by omega) (by omega) hr
  exact ⟨Nat.zero_le _, by omega, h2, h3, h4⟩

/-- Witness for C1 at the default settings and the freshly started snapshot. -/
theorem reachable_snapshot_invariants_witness :
    (1 ≤ DEFAULT_SETTINGS.lives ∧ DEFAULT_SETTINGS.lives ≤ 5 ∧
      3 ≤ DEFAULT_SETTINGS.sequenceLength ∧ DEFAULT_SETTINGS.sequenceLength ≤ 20) ∧
    (0 ≤ (startGame DEFAULT_SETTINGS zeroStream 0).currentIndex ∧
      (startGame DEFAULT_SETTINGS zeroStream 0).currentIndex ≤
        (startGame DEFAULT_SETTINGS zeroStream 0).sequence.length ∧
      0 ≤ (startGame DEFAULT_SETTINGS zeroStream 0).lives ∧
      ((startGame DEFAULT_SETTINGS zeroStream 0).lives = 0 ↔
        (startGame DEFAULT_SETTINGS zeroStream 0).isGameOver = true) ∧
      (startGame DEFAULT_SETTINGS zeroStream 0).correct ≤
        (startGame DEFAULT_SETTINGS zeroStream 0).attempts) :=
  ⟨⟨by decide, by decide, by decide, by decide⟩,
    reachable_snapshot_invariants DEFAULT_SETTINGS (by decide) (by decide)
      (by decide) (by decide) (Reachable.start zeroStream 0 validStream_zero)⟩

/-- Claim C4: `handleInput` is the identity on paused or game-over snapshots
(hence idempotent on terminal snapshots), and on every reachable snapshot the
one fallible operation — the `sequence[currentIndex]` read performed on active
snapshots — is in bounds, so no state-machine operation raises an error. -/
theorem handleInput_terminal_noop_and_safe (settings : GameSettings)
    (hl1 : 1 ≤ settings.lives) (hl2 : settings.lives ≤ 5)
    (hs1 : 3 ≤ settings.sequenceLength) (hs2 : settings.sequenceLength ≤ 20) :
    (∀ (snap : GameSnapshot) (m : ℤ) (g : ℕ → Draws) (now : ℤ),
        snap.isPaused = true ∨ snap.isGameOver = true →
        handleInput snap m settings g now = snap) ∧
    (∀ (snap : GameSnapshot) (m m' : ℤ) (g g' : ℕ → Draws) (now now' : ℤ),
        snap.isGameOver = true →
        handleInput (handleInput snap m settings g now) m' settings g' now' =
          handleInput snap m settings g now) ∧
    (∀ snap : GameSnapshot, Reachable settings snap →
        ¬ inputAccessOutOfBounds snap) := by
  have hnoop : ∀ (snap : GameSnapshot) (m : ℤ) (g : ℕ → Draws) (now : ℤ),
      snap.isPaused = true ∨ snap.isGameOver = true →
      handleInput snap m settings g now = snap := by
    intro snap m g now h
    simp only [handleInput]
    rw [if_pos]
    rcases h with h | h <;> simp [h]
  refine ⟨hnoop, ?_, ?_⟩
  · intro snap m m' g g' now now' hgo
    rw [hnoop snap m g now (Or.inr hgo), hnoop snap m' g' now' (Or.inr hgo)]
  · intro snap hr hbad
    simp only [inputAccessOutOfBounds] at hbad
    obtain ⟨h1, _, _, _⟩ := reachable_inv settings (by omega) (by omega) hr
    omega

/-- Witness for C4 at the default settings. -/
theorem handleInput_terminal_noop_and_safe_witness :
    (1 ≤ DEFAULT_SETTINGS.lives ∧ DEFAULT_SETTINGS.lives ≤ 5 ∧
      3 ≤ DEFAULT_SETTINGS.sequenceLength ∧ DEFAULT_SETTINGS.sequenceLength ≤ 20) ∧
    ((∀ (snap : GameSnapshot) (m : ℤ) (g : ℕ → Draws) (now : ℤ),
        snap.isPaused = true ∨ snap.isGameOver = true →
        handleInput snap m DEFAULT_SETTINGS g now = snap) ∧
      (∀ (snap : GameSnapshot) (m m' : ℤ) (g g' : ℕ → Draws) (now now' : ℤ),
        snap.isGameOver = true →
        handleInput (handleInput snap m DEFAULT_SETTINGS g now) m' DEFAULT_SETTINGS g' now' =
          handleInput snap m DEFAULT_SETTINGS g now) ∧
      (∀ snap : GameSnapshot, Reachable DEFAULT_SETTINGS snap →
        ¬ inputAccessOutOfBounds snap)) :=
  ⟨⟨by decide, by decide, by decide, by decide⟩,
    handleInput_terminal_noop_and_safe DEFAULT_SETTINGS (by decide) (by decide)
      (by decide) (by decide)⟩

/-- Claim C3: a mismatching input on an active snapshot with one life left
produces the terminal snapshot — game over, zero lives, zero streak, error
flash, `lastWasCorrect = false`, attempts incremented, and every other field
(in particular the sequence and the index) unchanged — and any subsequent
`handleInput` leaves score and attempts unchanged. -/
theorem mismatch_on_last_life_terminal (snap : GameSnapshot) (m : ℤ)
    (settings : GameSettings) (g : ℕ → Draws) (now : ℤ)
    (hp : snap.isPaused = false) (hgo : snap.isGameOver = false)
    (hl : snap.lives = 1) (hb : snap.currentIndex < snap.sequence.length)
    (hm : m ≠ (snap.sequence.getD snap.currentIndex defaultNoteSpec).midi) :
    handleInput snap m settings g now =
      { snap with
        attempts := snap.attempts + 1
        lives := 0
        streak := 0
        isGameOver := true
        lastWasCorrect := some false
        flashError := true } ∧
    ∀ (m' : ℤ) (g' : ℕ → Draws) (now' : ℤ),
      (handleInput (handleInput snap m settings g now) m' settings g' now').score =
        (handleInput snap m settings g now).score ∧
      (handleInput (handleInput snap m settings g now) m' settings g' now').attempts =
        (handleInput snap m settings g now).attempts := by
  have hres : handleInput snap m settings g now =
      { snap with
        attempts := snap.attempts + 1
        lives := 0
        streak := 0
        isGameOver := true
        lastWasCorrect := some false
        flashError := true } := by
    simp only [handleInput]
    rw [if_neg (by simp [hp, hgo]), if_neg hm]
    simp only [handleIncorrectInput]
    rw [if_pos (by simp [hl])]
  have hterm : handleInput (handleInput snap m settings g now) = fun m' settings' g' now' =>
      handleInput snap m settings g now := by
    funext m' settings' g' now'
    rw [hres]
    simp only [handleInput]
    rw [if_pos (by simp)]
  refine ⟨hres, fun m' g' now' => ?_⟩
  rw [congrFun (congrFun (congrFun (congrFun hterm m') settings) g') now']
  exact ⟨rfl, rfl⟩

/-- A concrete middle-C note specification for witness snapshots. -/
def middleCNote : NoteSpec :=
  { midi := 60
    pitch := ['C', '4']
    vexKey := ['C', '/', '4']
    clef := .treble
    accidental := none }

/-- The concrete one-life snapshot used to instantiate the C3 witness. -/
def lastLifeSnapshot : GameSnapshot :=
  { sequence := [middleCNote]
    currentIndex := 0
    score := 0
    streak := 0
    attempts := 0
    correct := 0
    lives := 1
    avgMsPerNote := 0
    startedAt := 0
    expectingNoteSince := 0
    isPaused := false
    isGameOver := false
    lastWasCorrect := none
    flashError := false }

/-- Witness for C3: playing note 0 against expected note 60 on the one-life
snapshot. -/
theorem mismatch_on_last_life_terminal_witness :
    (lastLifeSnapshot.isPaused = false ∧ lastLifeSnapshot.isGameOver = false ∧
      lastLifeSnapshot.lives = 1 ∧
      lastLifeSnapshot.currentIndex < lastLifeSnapshot.sequence.length ∧
      (0 : ℤ) ≠ (lastLifeSnapshot.sequence.getD lastLifeSnapshot.currentIndex
        defaultNoteSpec).midi) ∧
    (handleInput lastLifeSnapshot 0 DEFAULT_SETTINGS zeroStream 0 =
      { lastLifeSnapshot with
        attempts := lastLifeSnapshot.attempts + 1
        lives := 0
        streak := 0
        isGameOver := true
        lastWasCorrect := some false
        flashError := true } ∧
    ∀ (m' : ℤ) (g' : ℕ → Draws) (now' : ℤ),
      (handleInput (handleInput lastLifeSnapshot 0 DEFAULT_SETTINGS zeroStream 0)
          m' DEFAULT_SETTINGS g' now').score =
        (handleInput lastLifeSnapshot 0 DEFAULT_SETTINGS zeroStream 0).score ∧
      (handleInput (handleInput lastLifeSnapshot 0 DEFAULT_SETTINGS zeroStream 0)
          m' DEFAULT_SETTINGS g' now').attempts =
        (handleInput lastLifeSnapshot 0 DEFAULT_SETTINGS zeroStream 0).attempts) :=
  ⟨⟨rfl, rfl, rfl, by decide, by decide⟩,
    mismatch_on_last_life_terminal lastLifeSnapshot 0 DEFAULT_SETTINGS zeroStream 0
      rfl rfl rfl (by decide) (by decide)⟩

/-- Claim C8 (code-bug evidence): the complete post-state of a surviving
mismatch. The field list is exhaustive: `GameSnapshot` (types.ts:23-38) has no
best-streak field, the engine resets `streak` to 0 and records the maximum
nowhere, even though the spec lists "best streak ever reached this session" as
a snapshot field and App.tsx reads `snapshot.bestStreak` for the high-score
entry and the game-over screen (it is `undefined` at runtime). -/
theorem mismatch_discards_streak_entirely (snap : GameSnapshot) (m : ℤ)
    (settings : GameSettings) (g : ℕ → Draws) (now : ℤ)
    (hp : snap.isPaused = false) (hgo : snap.isGameOver = false)
    (hl : 2 ≤ snap.lives)
    (hm : m ≠ (snap.sequence.getD snap.currentIndex defaultNoteSpec).midi) :
    handleInput snap m settings g now =
      { snap with
        sequence := regenerateSequence settings g
        currentIndex := 0
        lives := snap.lives - 1
        streak := 0
        attempts := snap.attempts + 1
        expectingNoteSince := now
        lastWasCorrect := some false
        flashError := true } := by
  simp only [handleInput]
  rw [if_neg (by simp [hp, hgo]), if_neg hm]
  simp only [handleIncorrectInput]
  rw [if_neg (by simp; omega)]

/-- The concrete two-life, streak-one snapshot used for the C8 witness. -/
def streakOneSnapshot : GameSnapshot :=
  { lastLifeSnapshot with lives := 2, streak := 1 }

/-- Witness for C8's evidence theorem: a streak of 1 is discarded by the
mismatch; no field of the successor snapshot retains it. -/
theorem mismatch_discards_streak_entirely_witness :
    (streakOneSnapshot.isPaused = false ∧ streakOneSnapshot.isGameOver = false ∧
      2 ≤ streakOneSnapshot.lives ∧
      (0 : ℤ) ≠ (streakOneSnapshot.sequence.getD streakOneSnapshot.currentIndex
        defaultNoteSpec).midi) ∧
    handleInput streakOneSnapshot 0 DEFAULT_SETTINGS zeroStream 0 =
      { streakOneSnapshot with
        sequence := regenerateSequence DEFAULT_SETTINGS zeroStream
        currentIndex := 0
        lives := streakOneSnapshot.lives - 1
        streak := 0
        attempts := streakOneSnapshot.attempts + 1
        expectingNoteSince := 0
        lastWasCorrect := some false
        flashError := true } :=
  ⟨⟨rfl, rfl, by decide, by decide⟩,
    mismatch_discards_streak_entirely streakOneSnapshot 0 DEFAULT_SETTINGS zeroStream 0
      rfl rfl (by decide) (by decide)⟩

/-- One correct input on an active snapshot takes the `handleCorrectInput` path
with attempts already incremented. -/
lemma handleInput_correct_eq (snap : GameSnapshot) (settings : GameSettings)
    (g : ℕ → Draws) (now : ℤ)
    (hp : snap.isPaused = false) (hgo : snap.isGameOver = false) :
    handleInput snap ((snap.sequence.getD snap.currentIndex defaultNoteSpec).midi)
        settings g now =
      handleCorrectInput { snap with attempts := snap.attempts + 1 } now settings g := by
  simp only [handleInput]
  rw [if_neg (by simp [hp, hgo])]
  simp

/-- Unfolding lemma for `playCorrect`: zero steps change nothing. -/
lemma playCorrect_zero (settings : GameSettings) (G : ℕ → ℕ → Draws) (T : ℕ → ℤ)
    (snap : GameSnapshot) : playCorrect settings G T 0 snap = snap := rfl

/-- Unfolding lemma for `playCorrect`: one step then the rest with shifted streams. -/
lemma playCorrect_succ (settings : GameSettings) (G : ℕ → ℕ → Draws) (T : ℕ → ℤ)
    (k : ℕ) (snap : GameSnapshot) :
    playCorrect settings G T (k + 1) snap =
      playCorrect settings (fun n => G (n + 1)) (fun n => T (n + 1)) k
        (handleInput snap ((snap.sequence.getD snap.currentIndex defaultNoteSpec).midi)
          settings (G 0) (T 0)) := rfl

/-- Running `k + 1` correct inputs from an active snapshot that is `k + 1`
notes away from the end of its sequence wraps back to index 0 with a
fresh full-length sequence and the streak increased by `k + 1`. -/
lemma playCorrect_run (settings : GameSettings) :
    ∀ (k : ℕ) (G : ℕ → ℕ → Draws) (T : ℕ → ℤ) (snap : GameSnapshot),
      snap.isPaused = false → snap.isGameOver = false →
      snap.sequence.length = settings.sequenceLength →
      snap.currentIndex + (k + 1) = settings.sequenceLength →
      (playCorrect settings G T (k + 1) snap).currentIndex = 0 ∧
      (playCorrect settings G T (k + 1) snap).sequence.length =
        settings.sequenceLength ∧
      (playCorrect settings G T (k + 1) snap).streak = snap.streak + (k + 1 : ℤ) := by
  intro k
  induction k with
  | zero =>
    intro G T snap hp hgo hlen hidx
    have hle : snap.sequence.length ≤ snap.currentIndex + 1 := by omega
    rw [playCorrect_succ, handleInput_correct_eq snap settings (G 0) (T 0) hp hgo,
      playCorrect_zero]
    simp only [handleCorrectInput]
    rw [if_pos (by simpa using hle)]
    refine ⟨rfl, ?_, ?_⟩
    · simp [regenerateSequence, generateSequence_length]
    · simp [calculateScoreForCorrect]
  | succ k ih =>
    intro G T snap hp hgo hlen hidx
    have hstep : handleInput snap
        ((snap.sequence.getD snap.currentIndex defaultNoteSpec).midi)
        settings (G 0) (T 0) =
        handleCorrectInput { snap with attempts := snap.attempts + 1 }
          (T 0) settings (G 0) :=
      handleInput_correct_eq snap settings (G 0) (T 0) hp hgo
    have hlt : ¬ snap.sequence.length ≤ snap.currentIndex + 1 := by omega
    have hstep2 : handleCorrectInput { snap with attempts := snap.attempts + 1 }
        (T 0) settings (G 0) =
        { snap with
          attempts := snap.attempts + 1
          currentIndex := snap.currentIndex + 1
          score := (calculateScoreForCorrect snap.score snap.streak).score
          streak := (calculateScoreForCorrect snap.score snap.streak).streak
          correct := snap.correct + 1
          avgMsPerNote := updateAvgResponseTime snap.avgMsPerNote
            (T 0 - snap.expectingNoteSince) (snap.correct + 1)
          expectingNoteSince := T 0
          lastWasCorrect := some true
          flashError := false } := by
      simp only [handleCorrectInput]
      rw [if_neg (by simpa using hlt)]
    have hrest := ih (fun n => G (n + 1)) (fun n => T (n + 1))
      (handleCorrectInput { snap with attempts := snap.attempts + 1 }
        (T 0) settings (G 0))
      (by rw [hstep2]; exact hp) (by rw [hstep2]; exact hgo)
      (by rw [hstep2]; exact hlen)
      (by rw [hstep2]
          show snap.currentIndex + 1 + (k + 1) = settings.sequenceLength
          omega)
    rw [playCorrect_succ, hstep]
    refine ⟨hrest.1, hrest.2.1, ?_⟩
    rw [hrest.2.2, hstep2]
    simp only [calculateScoreForCorrect]
    push_cast
    ring

/-- Claim C5: from any active snapshot at index 0 whose sequence has the
configured length L, L consecutive correct inputs return the index to 0,
leave a (regenerated) sequence of length L in place, and increase the streak
by exactly L. -/
theorem full_sequence_completion_resets (settings : GameSettings)
    (hs1 : 3 ≤ settings.sequenceLength) (hs2 : settings.sequenceLength ≤ 20)
    (G : ℕ → ℕ → Draws) (T : ℕ → ℤ) (snap : GameSnapshot)
    (hp : snap.isPaused = false) (hgo : snap.isGameOver = false)
    (hidx : snap.currentIndex = 0)
    (hlen : snap.sequence.length = settings.sequenceLength) :
    (playCorrect settings G T settings.sequenceLength snap).currentIndex = 0 ∧
    (playCorrect settings G T settings.sequenceLength snap).sequence.length =
      settings.sequenceLength ∧
    (playCorrect settings G T settings.sequenceLength snap).streak =
      snap.streak + (settings.sequenceLength : ℤ) := by
  obtain ⟨k, hk⟩ : ∃ k, settings.sequenceLength = k + 1 :=
    ⟨settings.sequenceLength - 1, by omega⟩
  have h := playCorrect_run settings k G T snap hp hgo hlen (by omega)
  rw [hk]
  refine ⟨h.1, by rw [h.2.1, hk], by rw [h.2.2]; push_cast; ring⟩

/-- Witness for C5: the freshly started default game played through its first
five-note sequence with all-correct inputs. -/
theorem full_sequence_completion_resets_witness :
    ((startGame DEFAULT_SETTINGS zeroStream 0).isPaused = false ∧
      (startGame DEFAULT_SETTINGS zeroStream 0).isGameOver = false ∧
      (startGame DEFAULT_SETTINGS zeroStream 0).currentIndex = 0 ∧
      (startGame DEFAULT_SETTINGS zeroStream 0).sequence.length =
        DEFAULT_SETTINGS.sequenceLength) ∧
    ((playCorrect DEFAULT_SETTINGS (fun _ => zeroStream) (fun _ => 0)
        DEFAULT_SETTINGS.sequenceLength
        (startGame DEFAULT_SETTINGS zeroStream 0)).currentIndex = 0 ∧
      (playCorrect DEFAULT_SETTINGS (fun _ => zeroStream) (fun _ => 0)
        DEFAULT_SETTINGS.sequenceLength
        (startGame DEFAULT_SETTINGS zeroStream 0)).sequence.length =
        DEFAULT_SETTINGS.sequenceLength ∧
      (playCorrect DEFAULT_SETTINGS (fun _ => zeroStream) (fun _ => 0)
        DEFAULT_SETTINGS.sequenceLength
        (startGame DEFAULT_SETTINGS zeroStream 0)).streak =
        (startGame DEFAULT_SETTINGS zeroStream 0).streak +
          (DEFAULT_SETTINGS.sequenceLength : ℤ)) :=
  ⟨⟨rfl, rfl, rfl, generateSequence_length DEFAULT_SETTINGS zeroStream⟩,
    full_sequence_completion_resets DEFAULT_SETTINGS (by decide) (by decide)
      (fun _ => zeroStream) (fun _ => 0) (startGame DEFAULT_SETTINGS zeroStream 0)
      rfl rfl rfl (generateSequence_length DEFAULT_SETTINGS zeroStream)⟩

end PianoTrainer
